import Mathlib

/-!
Verification development for the aircraft-manual ingestion pipeline
(`process_chunks.py`, `embed_chunks.py`, and the superseded
`OLD-doesnt-save-interim-process_manual.py`).

External engines (the `tiktoken` tokenizer, Python's `re` matcher, the
OpenAI embedding endpoint and the Supabase insert endpoint) are modelled
as parameters; everything written in the repository itself is translated
literally.  Float weights from the source are modelled as exact
rationals; every comparison exercised below is insensitive to the
rounding difference.
-/

namespace AMP

/-! ### Python primitives used by the source -/

/-- Whitespace class of Python's regex `\s` restricted to ASCII
(space, tab, newline, carriage return, vertical tab, form feed);
the manuals' text only exercises these. -/
def isPySpace (c : Char) : Bool :=
  c == ' ' || c == '\t' || c == '\n' || c == '\r' || c == '\x0b' || c == '\x0c'

/-- Replacement applied to one maximal whitespace run by
`re.sub(r'\s\x7b2,\x7d', ' ', text)`: a run of two or more whitespace
characters becomes a single space, a single whitespace character is kept. -/
def flushRun (run : List Char) : List Char :=
  if 2 ≤ run.length then [' '] else run

/-- Scanner for `re.sub(r'\s\x7b2,\x7d', ' ', text)`: `run` holds the
current maximal whitespace run, flushed when a non-whitespace character
or the end of the string is reached. -/
def collapseWsAux (run : List Char) : List Char → List Char
  | [] => flushRun run
  | c :: cs =>
    if isPySpace c then collapseWsAux (run ++ [c]) cs
    else flushRun run ++ c :: collapseWsAux [] cs

/-- Model of `re.sub(r'\s\x7b2,\x7d', ' ', text)`. -/
def collapseWs (l : List Char) : List Char :=
  collapseWsAux [] l

/-- Model of Python's `str.strip()` on a character list. -/
def pyStrip (l : List Char) : List Char :=
  ((l.dropWhile isPySpace).reverse.dropWhile isPySpace).reverse

/-- Model of `str.strip()` on strings (used for `.group(1).strip()`). -/
def pyStripStr (s : String) : String :=
  ⟨pyStrip s.data⟩

/-- The whitespace normalization of `chunk_text`
(`process_chunks.py` line 124): `re.sub(r'\s\x7b2,\x7d', ' ', page["text"]).strip()`. -/
def normalizeWs (s : String) : String :=
  ⟨pyStrip (collapseWs s.data)⟩

/-- Model of Python's `range(0, stop, step)` for `step ≥ 1`
(for `step = 0` Python raises `ValueError`; the pipeline only reaches the
loop with `chunk_size - chunk_overlap ≥ 1`). -/
def pyRange (stop step : Nat) : List Nat :=
  List.range' 0 ((stop + step - 1) / step) step

/-- Model of `llm_cleanup` (`process_chunks.py` lines 113-116):
`text.replace("\x00", "")`. -/
def llm_cleanup (text : String) : String :=
  text.replace "\x00" ""

/-- Flag `USE_LLM_CLEANUP` (`process_chunks.py` line 12). -/
def USE_LLM_CLEANUP : Bool := true

/-- Configuration constant `AIRCRAFT_MODEL` (`config.py` line 11). -/
def AIRCRAFT_MODEL : String := "DA42"

/-! ### Category classifier (`process_chunks.py` lines 18-94) -/

/-- One compiled regex of `_CAT_PATTERNS`.  Each constructor stands for
one pattern literal of `process_chunks.py` lines 18-66, in source order;
the regex source is recorded in the table `CAT_PATTERNS` below. -/
inductive Pat
  | nonContent1
  | hydraulic1
  | hydraulic2
  | electrical1
  | electrical2
  | avionics1
  | avionics2
  | powerplant1
  | powerplant2
  | landingGear1
  | landingGear2
  | maintenance1
  | maintenance2
  | fuelSystem1
  | fuelSystem2
  | environmental1
  | flightControls1
  | flightControls2
  | emergency1
  | limitations1
  | operating1
  deriving DecidableEq, Repr

/-- The table `_CAT_PATTERNS` (`process_chunks.py` lines 18-66): for each
category, its list of (pattern, weight) pairs, in source order.
Pattern constructors map to the regexes as follows:
`nonContent1 ~ \b(table of contents|contents|toc|list of (tables|figures)|illustrations?|drawings?|schematics?)\b` weight 3.0;
`hydraulic1 ~ \bhydraul\w+\b` 3.0; `hydraulic2 ~ \b(actuator|reservoir|accumulator|servo|pressure|relief valve|hyd\.? pump)\b` 1.5;
`electrical1 ~ \belectrical?( system)?\b` 3.0; `electrical2 ~ \b(circuit(s)?|voltage|current|battery|generator|alternator|bus(bar)?|breaker|inverter)\b` 1.5;
`avionics1 ~ \b(avionics?|navigation|communication|radar|(fms|gps)\b|display|computer)\b` 1.5; `avionics2 ~ \bflight director\b` 3.0;
`powerplant1 ~ \b(powerplant|engine(s)?|turbine|compressor|combustion|exhaust|ignition|propeller)\b` 2.0; `powerplant2 ~ \b(n1|n2|egt|itt|torque)\b` 1.2;
`landingGear1 ~ \blanding gear\b` 3.0; `landingGear2 ~ \b(strut|shock|brake(s)?|wheel(s)?|tire(s)?|nose gear|extend|retract)\b` 1.5;
`maintenance1 ~ \b(troubleshooting|inspection|intervals?|schedule|service|lubricat(e|ion)|maintenance)\b` 1.5; `maintenance2 ~ \b(removal and installation|R&I|install(ation)?|remove)\b` 1.5;
`fuelSystem1 ~ \bfuel system\b` 3.0; `fuelSystem2 ~ \b(fuel (tank|selector|quantity|indicator|flow)|boost pump|unfeather pump)\b` 1.8;
`environmental1 ~ \b(air conditioning|pressurization|bleed air|ventilation|temperature control|oxygen)\b` 2.0;
`flightControls1 ~ \b(flight control|aileron|elevator|rudder|flap|spoiler|trim)\b` 1.8; `flightControls2 ~ \b(autopilot|yaw damper)\b` 2.2;
`emergency1 ~ \b(emergency procedures?|abnormal|warning(s)?|caution(s)?)\b` 1.5;
`limitations1 ~ \b(limitations?|operating limits?|weight and balance|center of gravity|c\.?g\.?)\b` 1.8;
`operating1 ~ \b(normal procedures?|operational procedures?|checklist|preflight|postflight|start(ing)?|shutdown)\b` 1.5. -/
def CAT_PATTERNS : List (String × List (Pat × ℚ)) :=
  [ ("Non-Content", [(.nonContent1, 3.0)]),
    ("Hydraulic", [(.hydraulic1, 3.0), (.hydraulic2, 1.5)]),
    ("Electrical", [(.electrical1, 3.0), (.electrical2, 1.5)]),
    ("Avionics", [(.avionics1, 1.5), (.avionics2, 3.0)]),
    ("Powerplant", [(.powerplant1, 2.0), (.powerplant2, 1.2)]),
    ("Landing Gear", [(.landingGear1, 3.0), (.landingGear2, 1.5)]),
    ("Maintenance", [(.maintenance1, 1.5), (.maintenance2, 1.5)]),
    ("Fuel System", [(.fuelSystem1, 3.0), (.fuelSystem2, 1.8)]),
    ("Environmental", [(.environmental1, 2.0)]),
    ("Flight Controls", [(.flightControls1, 1.8), (.flightControls2, 2.2)]),
    ("Emergency Procedures", [(.emergency1, 1.5)]),
    ("Limitations", [(.limitations1, 1.8)]),
    ("Operating Procedures", [(.operating1, 1.5)]) ]

/-- Constant `_TITLE_WEIGHT` (`process_chunks.py` line 68). -/
def TITLE_WEIGHT : ℚ := 3.0

/-- Constant `_TEXT_WEIGHT` (`process_chunks.py` line 69). -/
def TEXT_WEIGHT : ℚ := 1.0

/-- Constant `_MIN_SCORE` (`process_chunks.py` line 70). -/
def MIN_SCORE : ℚ := 2.0

/-- The external engines the pipeline calls but does not implement:
`tiktoken`'s `cl100k_base` encoder/decoder, `re.search` for the section
title heuristic (returning group 1 of the first match, unstripped), and
`len(pat.findall(text))` for the category patterns. -/
structure Env where
  encode : String → List Nat
  decode : List Nat → String
  titleSearch : String → Option String
  findall : Pat → String → Nat

/-- Accumulation of one category's score (`process_chunks.py` lines 82-86):
for each (pattern, weight) pair, add `_TITLE_WEIGHT * w * len(findall(hdr))`
when `hdr` is non-empty, and `_TEXT_WEIGHT * w * len(findall(body))`. -/
def catScore (env : Env) (body hdr : String) (pats : List (Pat × ℚ)) : ℚ :=
  pats.foldl
    (fun s pw =>
      s + (if hdr ≠ "" then TITLE_WEIGHT * pw.2 * (env.findall pw.1 hdr : ℚ) else 0)
        + TEXT_WEIGHT * pw.2 * (env.findall pw.1 body : ℚ))
    0

/-- The full score table, in the dictionary's insertion order (which is
the `_CAT_PATTERNS` order, since every category is touched). -/
def catScores (env : Env) (body hdr : String) : List (String × ℚ) :=
  CAT_PATTERNS.map (fun cp => (cp.1, catScore env body hdr cp.2))

/-- Head of `sorted(scores.items(), key=lambda kv: kv[1], reverse=True)`
(`process_chunks.py` line 88): Python's sort is stable, so the head is the
first entry attaining the maximal score. -/
def rankedTop : List (String × ℚ) → Option (String × ℚ)
  | [] => none
  | p :: rest =>
    match rankedTop rest with
    | none => some p
    | some q => if q.2 > p.2 then some q else some p

/-- Model of `detect_system_category` (`process_chunks.py` lines 73-94)
at `topk = 1`, the only arity the pipeline uses.  `body = text or ""` and
`hdr = title or ""` of the source become `text` and `title.getD ""`. -/
def detect_system_category (env : Env) (text : String)
    (title : Option String := none) : String :=
  let body := text
  let hdr := title.getD ""
  match rankedTop (catScores env body hdr) with
  | none => "General"
  | some top => if top.2 < MIN_SCORE then "General" else top.1

/-! ### Chunking engine (`process_chunks.py` lines 118-152) -/

/-- Input record of the chunking engine: one extracted page. -/
structure Page where
  page_number : Nat
  text : String

/-- Output record of the chunking engine (`process_chunks.py` lines 142-150). -/
structure Chunk where
  content : String
  page_number : Nat
  section_title : String
  aircraft_model : String
  document_id : String
  system_category : String
  token_count : Nat
  deriving Repr

/-- Body of the inner loop of `chunk_text` for one window start `i`. -/
def mkChunk (env : Env) (pdf_basename : String) (chunk_size : Nat)
    (page_number : Nat) (tokens : List Nat) (i : Nat) : Chunk :=
  let chunk_tokens := (tokens.drop i).take chunk_size
  let decoded := env.decode chunk_tokens
  let ctext := if USE_LLM_CLEANUP then llm_cleanup decoded else decoded
  let section_title :=
    match env.titleSearch ctext with
    | some g => pyStripStr g
    | none => "Unknown Section"
  { content := ctext
    page_number := page_number
    section_title := section_title
    aircraft_model := AIRCRAFT_MODEL
    document_id := pdf_basename
    system_category := detect_system_category env ctext (some section_title)
    token_count := chunk_tokens.length }

/-- Chunks produced from a single page: normalize whitespace, tokenize,
and slide windows starting at `range(0, len(tokens), chunk_size - chunk_overlap)`. -/
def chunkPage (env : Env) (pdf_basename : String) (chunk_size chunk_overlap : Nat)
    (page : Page) : List Chunk :=
  let text := normalizeWs page.text
  let tokens := env.encode text
  (pyRange tokens.length (chunk_size - chunk_overlap)).map
    (mkChunk env pdf_basename chunk_size page.page_number tokens)

/-- Model of `chunk_text` (`process_chunks.py` lines 118-152); defaults
`chunk_size = 600`, `chunk_overlap = 50` as in the source. -/
def chunk_text (env : Env) (pages_text : List Page) (pdf_basename : String)
    (chunk_size : Nat := 600) (chunk_overlap : Nat := 50) : List Chunk :=
  (pages_text.map (chunkPage env pdf_basename chunk_size chunk_overlap)).flatten

/-! ### Embedding stage

Current implementation: `embed_with_openai` (`embed_chunks.py` lines 40-55).
Superseded implementation: `generate_embeddings`
(`OLD-doesnt-save-interim-process_manual.py` lines 142-193).
The provider is a parameter `oracle : Nat → Nat → Option (List ℚ)` mapping
(chunk index, attempt index) to the returned vector, or `none` when the
call raises.  Blocking external actions are recorded as events. -/

/-- External actions of the embedding stage: an embedding API call for a
given chunk and attempt, or a `time.sleep` of the given seconds. -/
inductive EmbEvent
  | call (chunk attempt : Nat)
  | sleep (secs : Nat)
  deriving DecidableEq, Repr

/-- Constant `retry_attempts`
(`OLD-doesnt-save-interim-process_manual.py` line 150). -/
def RETRY_ATTEMPTS : Nat := 3

/-- The retry loop `for attempt in range(retry_attempts)` of
`generate_embeddings` (OLD script lines 157-181) for chunk `i`: on
success return the vector; on failure sleep 5 seconds and retry, unless
it was the last attempt. -/
def tryChunkAux (oracle : Nat → Nat → Option (List ℚ))
    (i attempt remaining : Nat) : Option (List ℚ) × List EmbEvent :=
  match remaining with
  | 0 => (none, [])
  | r + 1 =>
    match oracle i attempt with
    | some v => (some v, [.call i attempt])
    | none =>
      match r with
      | 0 => (none, [.call i attempt])
      | _ + 1 =>
        let t := tryChunkAux oracle i (attempt + 1) r
        (t.1, .call i attempt :: .sleep 5 :: t.2)

/-- Main loop of `generate_embeddings` (OLD script lines 152-187):
per chunk, run the retry loop, set the chunk's embedding to the result
(`None` on exhaustion), bump the `successful`/`failed` counters, and pause
5 seconds after every 50th chunk (`if (i + 1) % 50 == 0`). -/
def genAux (oracle : Nat → Nat → Option (List ℚ)) :
    List Chunk → Nat → List (Chunk × Option (List ℚ)) × Nat × Nat × List EmbEvent
  | [], _ => ([], 0, 0, [])
  | c :: rest, i =>
    let t := tryChunkAux oracle i 0 RETRY_ATTEMPTS
    let rate : List EmbEvent := if (i + 1) % 50 = 0 then [.sleep 5] else []
    let tl := genAux oracle rest (i + 1)
    ((c, t.1) :: tl.1,
     ((if t.1.isSome then 1 else 0) + tl.2.1,
      (if t.1.isSome then 0 else 1) + tl.2.2.1,
      t.2 ++ rate ++ tl.2.2.2))

/-- Model of `generate_embeddings` (OLD script lines 142-193).  Returns
`valid_chunks = [c for c in chunks if c["embedding"] is not None]` paired
with the `successful` and `failed` counters and the event trace. -/
def generate_embeddings (oracle : Nat → Nat → Option (List ℚ))
    (chunks : List Chunk) : List (Chunk × List ℚ) × Nat × Nat × List EmbEvent :=
  let g := genAux oracle chunks 0
  (g.1.filterMap (fun p => p.2.map (fun v => (p.1, v))), g.2.1, g.2.2.1, g.2.2.2)

/-- Loop of `embed_with_openai` (`embed_chunks.py` lines 43-55): one
provider call per chunk; on success the chunk (with its vector) is
appended to `embedded`, on exception it is only logged and skipped.
There is no retry and no sleep. -/
def embedAux (oracle : Nat → Nat → Option (List ℚ)) :
    List Chunk → Nat → List (Chunk × List ℚ) × List EmbEvent
  | [], _ => ([], [])
  | c :: rest, i =>
    let tl := embedAux oracle rest (i + 1)
    match oracle i 0 with
    | some v => ((c, v) :: tl.1, .call i 0 :: tl.2)
    | none => (tl.1, .call i 0 :: tl.2)

/-- Model of `embed_with_openai` (`embed_chunks.py` lines 40-55). -/
def embed_with_openai (oracle : Nat → Nat → Option (List ℚ))
    (chunks : List Chunk) : List (Chunk × List ℚ) × List EmbEvent :=
  embedAux oracle chunks 0

/-! ### Upload stage

Current implementation: `upload_to_supabase` (`embed_chunks.py`
lines 83-148).  Superseded implementation: `upload_to_supabase`
(OLD script lines 195-252).  The store is a parameter mapping
(batch index, attempt index) to an outcome.  The connection test and the
debug prints of the current implementation touch no counter and are not
modelled; `batch_size = 50` in both versions. -/

/-- External actions of the upload stage. -/
inductive UpEvent
  | insert (batch attempt : Nat)
  | sleep (secs : Nat)
  deriving DecidableEq, Repr

/-- Constant `batch_size` (`embed_chunks.py` line 85, OLD script line 200). -/
def BATCH_SIZE : Nat := 50

/-- Outcome of one `supabase...insert(data).execute()` call in the current
implementation: a response whose `.data` is non-empty (`ok n` with `n`
records), a response with missing/empty `.data`, or a raised exception. -/
inductive InsertOutcome
  | ok (n : Nat)
  | noData
  | raised
  deriving DecidableEq, Repr

/-- One iteration of the batch loop of the current `upload_to_supabase`
(`embed_chunks.py` lines 123-146): `successful += len(response.data)` on a
data-bearing response, otherwise `failed += len(batch)`; exactly one
insert attempt. -/
def uploadBatchResult (ins : Nat → Nat → InsertOutcome) (b batchLen : Nat) :
    Nat × Nat × List UpEvent :=
  match ins b 0 with
  | .ok n => (n, 0, [.insert b 0])
  | .noData => (0, batchLen, [.insert b 0])
  | .raised => (0, batchLen, [.insert b 0])

/-- Model of the current `upload_to_supabase` (`embed_chunks.py`
lines 83-148): batches start at `range(0, len(chunks), batch_size)`, the
batch printed as number `i // batch_size + 1` is keyed here by
`i / BATCH_SIZE`, and the counters accumulate over every batch. -/
def upload_to_supabase (ins : Nat → Nat → InsertOutcome)
    (chunks : List (Chunk × List ℚ)) : Nat × Nat × List UpEvent :=
  let rs := (pyRange chunks.length BATCH_SIZE).map (fun i =>
    uploadBatchResult ins (i / BATCH_SIZE) ((chunks.drop i).take BATCH_SIZE).length)
  ((rs.map (·.1)).sum, (rs.map (·.2.1)).sum, (rs.map (·.2.2)).flatten)

/-- Constant `max_retries` (OLD script line 229). -/
def MAX_RETRIES : Nat := 3

/-- The retry loop `for attempt in range(max_retries)` of the OLD
`upload_to_supabase` (lines 230-246) for batch `b`: the oracle returns
`some n` for a successful insert of `n` records (`successful +=
len(result.data)`), `none` for a raised exception; between failed
attempts the stage sleeps 3 seconds. -/
def tryBatchAux (ins : Nat → Nat → Option Nat) (b attempt remaining : Nat) :
    Option Nat × List UpEvent :=
  match remaining with
  | 0 => (none, [])
  | r + 1 =>
    match ins b attempt with
    | some n => (some n, [.insert b attempt])
    | none =>
      match r with
      | 0 => (none, [.insert b attempt])
      | _ + 1 =>
        let t := tryBatchAux ins b (attempt + 1) r
        (t.1, .insert b attempt :: .sleep 3 :: t.2)

/-- One iteration of the OLD batch loop: retries, then on exhaustion
`failed += len(batch)`. -/
def oldBatchResult (ins : Nat → Nat → Option Nat) (b batchLen : Nat) :
    Nat × Nat × List UpEvent :=
  let t := tryBatchAux ins b 0 MAX_RETRIES
  match t.1 with
  | some n => (n, 0, t.2)
  | none => (0, batchLen, t.2)

/-- Model of the OLD `upload_to_supabase` (OLD script lines 195-252),
including the 2-second pause between batches
(`if i + batch_size < total_chunks`). -/
def old_upload_to_supabase (ins : Nat → Nat → Option Nat)
    (chunks : List (Chunk × List ℚ)) : Nat × Nat × List UpEvent :=
  let n := chunks.length
  let rs := (pyRange n BATCH_SIZE).map (fun i =>
    let r := oldBatchResult ins (i / BATCH_SIZE) ((chunks.drop i).take BATCH_SIZE).length
    (r.1, r.2.1, r.2.2 ++ (if i + BATCH_SIZE < n then [UpEvent.sleep 2] else [])))
  ((rs.map (·.1)).sum, (rs.map (·.2.1)).sum, (rs.map (·.2.2)).flatten)

/-! ### Concrete instances used for witnesses and counterexamples -/

/-- Toy tokenizer environment: one token per character, no title match,
no pattern match.  Stands in for the external `cl100k_base` engine in the
closed instances below; the chunking claims hold for every such engine. -/
def charEnv : Env where
  encode s := s.data.map Char.toNat
  decode ts := ⟨ts.map Char.ofNat⟩
  titleSearch _ := none
  findall _ _ := 0

/-- A concrete already-built chunk record, used as payload for the
embedding- and upload-stage instances (their control flow never inspects
the payload). -/
def exChunk : Chunk where
  content := "x"
  page_number := 1
  section_title := "Unknown Section"
  aircraft_model := AIRCRAFT_MODEL
  document_id := "manual.pdf"
  system_category := "General"
  token_count := 1

/-! ### Helper lemmas -/

theorem pyRange_zero (s : Nat) : pyRange 0 s = [] := by
  unfold pyRange
  rcases s with _ | s
  · rfl
  · rw [Nat.div_eq_of_lt (by omega)]
    rfl

theorem pyRange_length (n s : Nat) : (pyRange n s).length = (n + s - 1) / s := by
  unfold pyRange
  rw [List.length_range']

theorem mem_pyRange_lt {s n i : Nat} (hs : 1 ≤ s) (hi : i ∈ pyRange n s) : i < n := by
  unfold pyRange at hi
  rw [List.mem_range'] at hi
  obtain ⟨j, hj, rfl⟩ := hi
  have h4 : (j + 1) * s ≤ n + s - 1 :=
    le_trans (Nat.mul_le_mul_right _ hj) (Nat.div_mul_le_self _ _)
  have h5 : s * j + s ≤ n + s - 1 := by
    rw [Nat.add_mul, Nat.one_mul, Nat.mul_comm] at h4
    exact h4
  have hz : 0 + s * j = s * j := Nat.zero_add _
  rw [hz]
  generalize s * j = X at h5 ⊢
  omega

theorem ceil_div_eq_one_iff {n s : Nat} (hs : 1 ≤ s) :
    (n + s - 1) / s = 1 ↔ 1 ≤ n ∧ n ≤ s := by
  have h1 : 1 ≤ (n + s - 1) / s ↔ 1 * s ≤ n + s - 1 :=
    Nat.le_div_iff_mul_le hs
  have h2 : (n + s - 1) / s < 2 ↔ n + s - 1 < 2 * s :=
    Nat.div_lt_iff_lt_mul hs
  constructor
  · intro h
    have ha : 1 * s ≤ n + s - 1 := h1.mp (by omega)
    have hb : n + s - 1 < 2 * s := h2.mp (by omega)
    omega
  · intro h
    have ha : 1 ≤ (n + s - 1) / s := h1.mpr (by omega)
    have hb : (n + s - 1) / s < 2 := h2.mpr (by omega)
    omega

theorem range'_shift (s : Nat) : ∀ (k a : Nat),
    List.range' (a + s) k s = (List.range' a k s).map (· + s) := by
  intro k
  induction k with
  | zero => intro a; rfl
  | succ k ih =>
    intro a
    rw [List.range'_succ, List.range'_succ, List.map_cons, ih]

theorem ceil_div_step {n s : Nat} (hs : 1 ≤ s) (hn : 1 ≤ n) :
    (n + s - 1) / s = ((n - s) + s - 1) / s + 1 := by
  rcases le_or_lt n s with h | h
  · rw [(ceil_div_eq_one_iff hs).mpr ⟨hn, h⟩]
    have hz : n - s = 0 := by omega
    rw [hz, Nat.div_eq_of_lt (by omega)]
  · have he : n + s - 1 = ((n - s) + s - 1) + s := by omega
    rw [he, Nat.add_div_right _ hs]

theorem flatten_batches {α : Type} (s : Nat) (hs : 1 ≤ s) :
    ∀ (l : List α), ((pyRange l.length s).map (fun i => (l.drop i).take s)).flatten = l := by
  suffices H : ∀ n (l : List α), l.length = n →
      ((pyRange l.length s).map (fun i => (l.drop i).take s)).flatten = l by
    intro l; exact H l.length l rfl
  intro n
  induction n using Nat.strong_induction_on with
  | _ n ih =>
    intro l hl
    rcases l with _ | ⟨x, xs⟩
    · simp [pyRange_zero]
    · have hl' : xs.length + 1 = n := by simpa using hl
      have hn : 1 ≤ (x :: xs).length := by simp
      have hkey : pyRange (x :: xs).length s
          = 0 :: (pyRange ((x :: xs).length - s) s).map (· + s) := by
        unfold pyRange
        rw [ceil_div_step hs hn, List.range'_succ, range'_shift s _ 0]
      rw [hkey, List.map_cons, List.flatten_cons, List.map_map]
      have hcomp : ((fun i => ((x :: xs).drop i).take s) ∘ (· + s))
          = fun i => (((x :: xs).drop s).drop i).take s := by
        funext i
        simp only [Function.comp_apply, List.drop_drop]
        rw [Nat.add_comm]
      rw [hcomp]
      have hlen : (x :: xs).length - s = ((x :: xs).drop s).length :=
        (List.length_drop _ _).symm
      rw [hlen]
      have hdrop_lt : ((x :: xs).drop s).length < n := by
        rw [List.length_drop]
        simp only [List.length_cons]
        omega
      rw [ih _ hdrop_lt _ rfl]
      simp

/-! ### Claims about the chunking engine -/

/-- Claim C1, corrected.  For `chunk_size > chunk_overlap ≥ 0`, a page
whose normalized text tokenizes to exactly `chunk_size` tokens yields
`⌈chunk_size / (chunk_size - chunk_overlap)⌉` chunks, the first of which
has `token_count = chunk_size`; it yields exactly one chunk precisely
when `chunk_overlap = 0`. -/
theorem c1_amended_thm (env : Env) (p : Page) (b : String) (size overlap : Nat)
    (ho : overlap < size)
    (hn : (env.encode (normalizeWs p.text)).length = size) :
    (chunk_text env [p] b size overlap).length
        = (size + (size - overlap) - 1) / (size - overlap)
    ∧ (chunk_text env [p] b size overlap).head?.map (fun c => c.token_count) = some size
    ∧ ((chunk_text env [p] b size overlap).length = 1 ↔ overlap = 0) := by
  have hs : 1 ≤ size - overlap := by omega
  have hlen : (chunk_text env [p] b size overlap).length
      = (size + (size - overlap) - 1) / (size - overlap) := by
    simp only [chunk_text, List.map_cons, List.map_nil, List.flatten_cons, List.flatten_nil,
      List.append_nil, chunkPage]
    rw [List.length_map, pyRange_length, hn]
  refine ⟨hlen, ?_, ?_⟩
  · simp only [chunk_text, List.map_cons, List.map_nil, List.flatten_cons, List.flatten_nil,
      List.append_nil, chunkPage]
    have h1 : 1 ≤ (size + (size - overlap) - 1) / (size - overlap) := by
      rw [Nat.le_div_iff_mul_le hs]
      omega
    obtain ⟨k', hk'⟩ : ∃ k', (size + (size - overlap) - 1) / (size - overlap) = k' + 1 :=
      ⟨(size + (size - overlap) - 1) / (size - overlap) - 1, by omega⟩
    unfold pyRange
    rw [hn, hk', List.range'_succ]
    simp only [List.map_cons, List.head?_cons, Option.map_some']
    simp [mkChunk, List.length_take, List.length_drop, hn]
  · rw [hlen, ceil_div_eq_one_iff hs]
    omega

/-- Claim C1, counterexample to the claim as stated: with
`chunk_size = 2 > chunk_overlap = 1 ≥ 0` and a page of exactly 2 tokens,
the engine produces two chunks (window starts 0 and 1), not one. -/
theorem c1_counterexample :
    (charEnv.encode (normalizeWs "ab")).length = 2
    ∧ (chunk_text charEnv [⟨1, "ab"⟩] "m.pdf" 2 1).length = 2 :=
  ⟨rfl, rfl⟩

/-- Claim C1 witness: the amended statement instantiated at the
2-token page with `chunk_size = 2`, `chunk_overlap = 1`. -/
theorem c1_witness :
    (1 < 2 ∧ (charEnv.encode (normalizeWs "ab")).length = 2)
    ∧ ((chunk_text charEnv [⟨1, "ab"⟩] "m.pdf" 2 1).length = (2 + (2 - 1) - 1) / (2 - 1)
       ∧ (chunk_text charEnv [⟨1, "ab"⟩] "m.pdf" 2 1).head?.map (fun c => c.token_count)
           = some 2
       ∧ ((chunk_text charEnv [⟨1, "ab"⟩] "m.pdf" 2 1).length = 1 ↔ 1 = 0)) :=
  ⟨⟨by decide, rfl⟩, c1_amended_thm charEnv ⟨1, "ab"⟩ "m.pdf" 2 1 (by decide) rfl⟩

/-- Claim C6, corrected.  A page whose normalized text tokenizes to `n`
tokens with `1 ≤ n ≤ chunk_size - chunk_overlap` yields exactly one
chunk; the claim's own range `n < chunk_overlap` admits both `n = 0`
(zero chunks) and multi-chunk outcomes. -/
theorem c6_amended_thm (env : Env) (p : Page) (b : String) (size overlap : Nat)
    (ho : overlap < size)
    (h1 : 1 ≤ (env.encode (normalizeWs p.text)).length)
    (h2 : (env.encode (normalizeWs p.text)).length ≤ size - overlap) :
    (chunk_text env [p] b size overlap).length = 1 := by
  have hs : 1 ≤ size - overlap := by omega
  simp only [chunk_text, List.map_cons, List.map_nil, List.flatten_cons, List.flatten_nil,
    List.append_nil, chunkPage]
  rw [List.length_map, pyRange_length]
  exact (ceil_div_eq_one_iff hs).mpr ⟨h1, h2⟩

/-- Claim C6, counterexample to the claim as stated: a page of 0 tokens
(0 < chunk_overlap = 1 < chunk_size = 2) yields zero chunks, and a page
of 2 tokens (2 < chunk_overlap = 3 < chunk_size = 4) yields two chunks;
neither yields exactly one. -/
theorem c6_counterexample :
    (chunk_text charEnv [⟨1, ""⟩] "m.pdf" 2 1 = [])
    ∧ (charEnv.encode (normalizeWs "ab")).length = 2
    ∧ (chunk_text charEnv [⟨1, "ab"⟩] "m.pdf" 4 3).length = 2 :=
  ⟨rfl, rfl, rfl⟩

/-- Claim C6 witness: the amended statement instantiated at a 1-token
page with `chunk_size = 3`, `chunk_overlap = 2` (so `n = 1 < overlap`
and `n ≤ size - overlap`), yielding one chunk. -/
theorem c6_witness :
    (2 < 3 ∧ 1 ≤ (charEnv.encode (normalizeWs "a")).length
      ∧ (charEnv.encode (normalizeWs "a")).length ≤ 3 - 2)
    ∧ (chunk_text charEnv [⟨1, "a"⟩] "m.pdf" 3 2).length = 1 :=
  ⟨⟨by decide, by decide, by decide⟩,
   c6_amended_thm charEnv ⟨1, "a"⟩ "m.pdf" 3 2 (by decide) (by decide) (by decide)⟩

/-- Claim C8, confirmed.  The chunk `content` sequence is a deterministic
function of the page's text and the chunking parameters alone: two pages
with identical text (page numbers and document ids may differ) produce
identical content sequences, hence re-running on the same inputs does too. -/
theorem c8_thm (env : Env) (size overlap : Nat) (b1 b2 : String) (p q : Page)
    (h : p.text = q.text) :
    (chunk_text env [p] b1 size overlap).map (fun c => c.content)
      = (chunk_text env [q] b2 size overlap).map (fun c => c.content) := by
  simp only [chunk_text, List.map_cons, List.map_nil, List.flatten_cons, List.flatten_nil,
    List.append_nil, chunkPage, h, List.map_map]
  rfl

/-- Claim C8 witness: the determinism statement instantiated at two pages
carrying the same text under different page numbers and basenames. -/
theorem c8_witness :
    ((Page.mk 1 "ab").text = (Page.mk 2 "ab").text)
    ∧ ((chunk_text charEnv [⟨1, "ab"⟩] "x.pdf" 600 50).map (fun c => c.content)
        = (chunk_text charEnv [⟨2, "ab"⟩] "y.pdf" 600 50).map (fun c => c.content)) :=
  ⟨rfl, c8_thm charEnv 600 50 "x.pdf" "y.pdf" ⟨1, "ab"⟩ ⟨2, "ab"⟩ rfl⟩

/-- Claim C9, confirmed.  Every chunk emitted with
`chunk_overlap < chunk_size` has `1 ≤ token_count ≤ chunk_size`: window
starts stay inside the token sequence, so no window is empty or longer
than `chunk_size`. -/
theorem c9_thm (env : Env) (pages : List Page) (b : String) (size overlap : Nat)
    (ho : overlap < size) :
    ∀ c ∈ chunk_text env pages b size overlap,
      1 ≤ c.token_count ∧ c.token_count ≤ size := by
  intro c hc
  simp only [chunk_text, List.mem_flatten, List.mem_map] at hc
  obtain ⟨lc, ⟨pg, hpg, rfl⟩, hcl⟩ := hc
  simp only [chunkPage, List.mem_map] at hcl
  obtain ⟨i, hi, rfl⟩ := hcl
  have hs : 1 ≤ size - overlap := by omega
  have hlt := mem_pyRange_lt hs hi
  simp only [mkChunk, List.length_take, List.length_drop]
  omega

/-- Claim C9 witness: the invariant instantiated at a concrete 2-token
page with `chunk_size = 2`, `chunk_overlap = 1`. -/
theorem c9_witness :
    (1 < 2)
    ∧ ∀ c ∈ chunk_text charEnv [⟨1, "ab"⟩] "m.pdf" 2 1,
        1 ≤ c.token_count ∧ c.token_count ≤ 2 :=
  ⟨by decide, c9_thm charEnv [⟨1, "ab"⟩] "m.pdf" 2 1 (by decide)⟩

/-- Claim C10, confirmed.  A page whose normalized text tokenizes to the
empty token sequence contributes no chunks: the window loop body never
runs, no error is raised and no empty chunk is emitted. -/
theorem c10_thm (env : Env) (page : Page) (b : String) (size overlap : Nat)
    (h : env.encode (normalizeWs page.text) = []) :
    chunk_text env [page] b size overlap = [] := by
  simp only [chunk_text, List.map_cons, List.map_nil, List.flatten_cons, List.flatten_nil,
    List.append_nil, chunkPage, h, List.length_nil, pyRange_zero]

/-- Claim C10 witness: the zero-token statement instantiated at an
empty-text page under the default parameters. -/
theorem c10_witness :
    (charEnv.encode (normalizeWs "") = [])
    ∧ chunk_text charEnv [⟨1, ""⟩] "m.pdf" 600 50 = [] :=
  ⟨rfl, c10_thm charEnv ⟨1, ""⟩ "m.pdf" 600 50 rfl⟩

/-! ### Classifier lemmas -/

theorem rankedTop_eq_none_iff (l : List (String × ℚ)) :
    rankedTop l = none ↔ l = [] := by
  cases l with
  | nil => simp [rankedTop]
  | cons p rest =>
    cases h : rankedTop rest with
    | none => simp [rankedTop, h]
    | some q =>
      simp only [rankedTop, h]
      split <;> simp

theorem rankedTop_mem_max {l : List (String × ℚ)} {top : String × ℚ}
    (h : rankedTop l = some top) : top ∈ l ∧ ∀ x ∈ l, x.2 ≤ top.2 := by
  induction l generalizing top with
  | nil => simp [rankedTop] at h
  | cons p rest ih =>
    cases hr : rankedTop rest with
    | none =>
      rw [rankedTop_eq_none_iff] at hr
      subst hr
      simp only [rankedTop] at h
      cases h
      simp
    | some q =>
      obtain ⟨hqmem, hqmax⟩ := ih hr
      simp only [rankedTop, hr] at h
      by_cases hgt : q.2 > p.2
      · rw [if_pos hgt] at h
        cases h
        refine ⟨List.mem_cons_of_mem _ hqmem, ?_⟩
        intro x hx
        rcases List.mem_cons.mp hx with hx | hx
        · subst hx; exact le_of_lt hgt
        · exact hqmax x hx
      · rw [if_neg hgt] at h
        cases h
        refine ⟨List.mem_cons_self _ _, ?_⟩
        intro x hx
        rcases List.mem_cons.mp hx with hx | hx
        · subst hx; exact le_refl _
        · exact le_trans (hqmax x hx) (le_of_not_lt hgt)

theorem rankedTop_head_of_max (p : String × ℚ) (rest : List (String × ℚ))
    (h : ∀ x ∈ rest, x.2 ≤ p.2) : rankedTop (p :: rest) = some p := by
  cases hr : rankedTop rest with
  | none => simp [rankedTop, hr]
  | some q =>
    have hq := (rankedTop_mem_max hr).1
    simp only [rankedTop, hr]
    rw [if_neg (not_lt.mpr (h q hq))]

theorem rankedTop_of_strict {l : List (String × ℚ)} {x : String × ℚ}
    (hx : x ∈ l) (h : ∀ y ∈ l, y ≠ x → y.2 < x.2) : rankedTop l = some x := by
  induction l with
  | nil => simp at hx
  | cons p rest ih =>
    rcases List.mem_cons.mp hx with hpx | hxr
    · subst hpx
      cases hr : rankedTop rest with
      | none => simp [rankedTop, hr]
      | some q =>
        have hq := (rankedTop_mem_max hr).1
        simp only [rankedTop, hr]
        by_cases hqx : q = x
        · subst hqx
          rw [if_neg (lt_irrefl _)]
        · rw [if_neg (not_lt.mpr (le_of_lt (h q (List.mem_cons_of_mem _ hq) hqx)))]
    · have hr : rankedTop rest = some x :=
        ih hxr (fun y hy => h y (List.mem_cons_of_mem _ hy))
      simp only [rankedTop, hr]
      by_cases hpx : p = x
      · subst hpx
        rw [if_neg (lt_irrefl _)]
      · rw [if_pos (h p (List.mem_cons_self _ _) hpx)]

theorem foldl_add_eq_sum (f g : (Pat × ℚ) → ℚ) (l : List (Pat × ℚ)) :
    ∀ init : ℚ,
      l.foldl (fun s a => s + f a + g a) init = init + (l.map (fun a => f a + g a)).sum := by
  induction l with
  | nil => intro init; simp
  | cons a as ih =>
    intro init
    rw [List.foldl_cons, ih, List.map_cons, List.sum_cons]
    ring

/-- Score formula as the specification words it: per pattern,
`title_weight(3.0) × weight × (match count in title) +
body_weight(1.0) × weight × (match count in body)`, summed. -/
def scoreFormula (env : Env) (body hdr : String) (pats : List (Pat × ℚ)) : ℚ :=
  (pats.map (fun pw =>
    TITLE_WEIGHT * pw.2 * (env.findall pw.1 hdr : ℚ)
      + TEXT_WEIGHT * pw.2 * (env.findall pw.1 body : ℚ))).sum

theorem catScore_eq_formula (env : Env) (body hdr : String)
    (henv : ∀ p0 : Pat, env.findall p0 "" = 0) (pats : List (Pat × ℚ)) :
    catScore env body hdr pats = scoreFormula env body hdr pats := by
  unfold catScore scoreFormula
  rw [foldl_add_eq_sum
    (fun pw => if hdr ≠ "" then TITLE_WEIGHT * pw.2 * (env.findall pw.1 hdr : ℚ) else 0)
    (fun pw => TEXT_WEIGHT * pw.2 * (env.findall pw.1 body : ℚ)), zero_add]
  congr 1
  apply List.map_congr_left
  intro pw _
  by_cases hh : hdr = ""
  · subst hh
    simp [henv]
  · simp [hh]

/-! ### Claims about the category classifier -/

/-- Claim C2, confirmed (for every matcher that finds nothing in the
empty string, as Python's `findall` does for these patterns): every
category's accumulated score equals the weighted title/body formula,
the classifier's pick attains the maximal score, and any maximum below
the 2.0 threshold is replaced by "General". -/
theorem c2_thm (env : Env) (text : String) (title : Option String)
    (henv : ∀ p0 : Pat, env.findall p0 "" = 0) :
    catScores env text (title.getD "")
      = CAT_PATTERNS.map (fun cp => (cp.1, scoreFormula env text (title.getD "") cp.2))
    ∧ ∃ top, rankedTop (catScores env text (title.getD "")) = some top
        ∧ top ∈ catScores env text (title.getD "")
        ∧ (∀ x ∈ catScores env text (title.getD ""), x.2 ≤ top.2)
        ∧ detect_system_category env text title
            = if top.2 < MIN_SCORE then "General" else top.1 := by
  constructor
  · unfold catScores
    apply List.map_congr_left
    intro cp _
    rw [catScore_eq_formula env text (title.getD "") henv]
  · cases htop : rankedTop (catScores env text (title.getD "")) with
    | none =>
      rw [rankedTop_eq_none_iff] at htop
      unfold catScores at htop
      rw [List.map_eq_nil_iff] at htop
      simp [CAT_PATTERNS] at htop
    | some top =>
      obtain ⟨hmem, hmax⟩ := rankedTop_mem_max htop
      refine ⟨top, rfl, hmem, hmax, ?_⟩
      show (match rankedTop (catScores env text (title.getD "")) with
            | none => "General"
            | some t => if t.2 < MIN_SCORE then "General" else t.1)
          = if top.2 < MIN_SCORE then "General" else top.1
      rw [htop]

/-- Claim C2 witness: the statement instantiated at a matcher with no
matches anywhere (so every score is 0 and the classifier must answer
"General" through the threshold branch). -/
theorem c2_witness :
    (∀ p0 : Pat, charEnv.findall p0 "" = 0)
    ∧ (catScores charEnv "x" ((none : Option String).getD "")
        = CAT_PATTERNS.map (fun cp => (cp.1, scoreFormula charEnv "x" ((none : Option String).getD "") cp.2))
      ∧ ∃ top, rankedTop (catScores charEnv "x" ((none : Option String).getD "")) = some top
          ∧ top ∈ catScores charEnv "x" ((none : Option String).getD "")
          ∧ (∀ x ∈ catScores charEnv "x" ((none : Option String).getD ""), x.2 ≤ top.2)
          ∧ detect_system_category charEnv "x" none
              = if top.2 < MIN_SCORE then "General" else top.1) :=
  ⟨fun _ => rfl, c2_thm charEnv "x" none (fun _ => rfl)⟩

/-- Claim C7, corrected.  A "Table of Contents" hit guarantees the
Non-Content score is at least 3.0 (above the 2.0 threshold), and since
Non-Content is the first row of the pattern table, the classifier
returns "Non-Content" whenever no other category's score strictly
exceeds it — but not regardless of other keyword incidence (see the
counterexample). -/
theorem c7_amended_thm (env : Env) (text : String) (title : Option String)
    (h1 : 1 ≤ env.findall .nonContent1 text
          ∨ ((title.getD "") ≠ "" ∧ 1 ≤ env.findall .nonContent1 (title.getD "")))
    (h2 : ∀ x ∈ catScores env text (title.getD ""),
            x.2 ≤ catScore env text (title.getD "") [(.nonContent1, 3.0)]) :
    detect_system_category env text title = "Non-Content" := by
  have hhead : catScores env text (title.getD "")
      = ("Non-Content", catScore env text (title.getD "") [(.nonContent1, 3.0)])
          :: (CAT_PATTERNS.drop 1).map
              (fun cp => (cp.1, catScore env text (title.getD "") cp.2)) := rfl
  have htop : rankedTop (catScores env text (title.getD ""))
      = some ("Non-Content", catScore env text (title.getD "") [(.nonContent1, 3.0)]) := by
    rw [hhead]
    apply rankedTop_head_of_max
    intro x hx
    apply h2
    rw [hhead]
    exact List.mem_cons_of_mem _ hx
  have hsc : catScore env text (title.getD "") [(.nonContent1, 3.0)]
      = (if (title.getD "") ≠ "" then
            TITLE_WEIGHT * 3.0 * (env.findall .nonContent1 (title.getD "") : ℚ) else 0)
        + TEXT_WEIGHT * 3.0 * (env.findall .nonContent1 text : ℚ) := by
    unfold catScore
    rw [List.foldl_cons, List.foldl_nil, zero_add]
  have hge : MIN_SCORE ≤ catScore env text (title.getD "") [(.nonContent1, 3.0)] := by
    rcases h1 with hb | ⟨hne, ht⟩
    · have hb' : (1:ℚ) ≤ (env.findall .nonContent1 text : ℚ) := by exact_mod_cast hb
      by_cases hh : (title.getD "") = ""
      · rw [hsc, if_neg (not_not_intro hh)]
        unfold MIN_SCORE TEXT_WEIGHT
        norm_num
        linarith
      · rw [hsc, if_pos hh]
        have hT : (0:ℚ) ≤ (3.0:ℚ) * 3.0 * (env.findall .nonContent1 (title.getD "") : ℚ) := by
          positivity
        unfold MIN_SCORE TITLE_WEIGHT TEXT_WEIGHT
        norm_num at hT ⊢
        linarith
    · rw [hsc, if_pos hne]
      have ht' : (1:ℚ) ≤ (env.findall .nonContent1 (title.getD "") : ℚ) := by exact_mod_cast ht
      have hB : (0:ℚ) ≤ (env.findall .nonContent1 text : ℚ) := Nat.cast_nonneg _
      unfold MIN_SCORE TITLE_WEIGHT TEXT_WEIGHT
      norm_num
      linarith
  show (match rankedTop (catScores env text (title.getD "")) with
        | none => "General"
        | some t => if t.2 < MIN_SCORE then "General" else t.1) = "Non-Content"
  rw [htop]
  show (if catScore env text (title.getD "") [(.nonContent1, 3.0)] < MIN_SCORE then
          "General" else "Non-Content") = "Non-Content"
  rw [if_neg (not_lt.mpr hge)]

/-- Match counts of every category pattern, as Python's `re.findall`
computes them on the body "Table of Contents hydraulic hydraulic
hydraulic" with no title: the Non-Content regex matches once (the phrase
"Table of Contents"), `\bhydraul\w+\b` matches three times, and no other
pattern of the table matches that body. -/
def c7Env : Env where
  encode _ := []
  decode _ := ""
  titleSearch _ := none
  findall p _ :=
    match p with
    | .nonContent1 => 1
    | .hydraulic1 => 3
    | _ => 0

theorem c7Env_scores :
    catScores c7Env "Table of Contents hydraulic hydraulic hydraulic" ""
      = [("Non-Content", 3), ("Hydraulic", 9), ("Electrical", 0), ("Avionics", 0),
         ("Powerplant", 0), ("Landing Gear", 0), ("Maintenance", 0), ("Fuel System", 0),
         ("Environmental", 0), ("Flight Controls", 0), ("Emergency Procedures", 0),
         ("Limitations", 0), ("Operating Procedures", 0)] := by
  simp only [catScores, CAT_PATTERNS, List.map_cons, List.map_nil, catScore, List.foldl, c7Env]
  norm_num [TEXT_WEIGHT, TITLE_WEIGHT]

/-- Claim C7, counterexample to the claim as stated: the chunk body
"Table of Contents hydraulic hydraulic hydraulic" contains the phrase
"Table of Contents", yet the three hydraulic keyword hits outscore
Non-Content (9 > 3) and the classifier returns "Hydraulic". -/
theorem c7_counterexample :
    detect_system_category c7Env "Table of Contents hydraulic hydraulic hydraulic" none
      = "Hydraulic"
    ∧ "Hydraulic" ≠ "Non-Content" := by
  constructor
  · have hs9 : rankedTop
        (catScores c7Env "Table of Contents hydraulic hydraulic hydraulic" "")
        = some ("Hydraulic", 9) := by
      rw [c7Env_scores]
      apply rankedTop_of_strict (x := ("Hydraulic", (9 : ℚ)))
      · simp
      · intro y hy hne
        fin_cases hy <;> first
          | exact absurd rfl hne
          | norm_num
    show (match rankedTop
        (catScores c7Env "Table of Contents hydraulic hydraulic hydraulic" "") with
        | none => "General"
        | some t => if t.2 < MIN_SCORE then "General" else t.1) = "Hydraulic"
    rw [hs9]
    show (if (9:ℚ) < MIN_SCORE then "General" else "Hydraulic") = "Hydraulic"
    rw [if_neg (by norm_num [MIN_SCORE])]
  · decide

/-- Match counts on the body "Table of Contents" with no title: only the
Non-Content regex matches (once); no other pattern matches that body. -/
def c7wEnv : Env where
  encode _ := []
  decode _ := ""
  titleSearch _ := none
  findall p _ :=
    match p with
    | .nonContent1 => 1
    | _ => 0

theorem c7wEnv_dominates :
    ∀ x ∈ catScores c7wEnv "Table of Contents" ((none : Option String).getD ""),
      x.2 ≤ catScore c7wEnv "Table of Contents" ((none : Option String).getD "")
              [(.nonContent1, 3.0)] := by
  have hNC : catScore c7wEnv "Table of Contents" ((none : Option String).getD "")
      [(.nonContent1, 3.0)] = 3 := by
    simp only [catScore, List.foldl, c7wEnv, Option.getD]
    norm_num [TEXT_WEIGHT]
  have hscores : catScores c7wEnv "Table of Contents" ((none : Option String).getD "")
      = [("Non-Content", 3), ("Hydraulic", 0), ("Electrical", 0), ("Avionics", 0),
         ("Powerplant", 0), ("Landing Gear", 0), ("Maintenance", 0), ("Fuel System", 0),
         ("Environmental", 0), ("Flight Controls", 0), ("Emergency Procedures", 0),
         ("Limitations", 0), ("Operating Procedures", 0)] := by
    simp only [catScores, CAT_PATTERNS, List.map_cons, List.map_nil, catScore, List.foldl,
      c7wEnv, Option.getD]
    norm_num [TEXT_WEIGHT, TITLE_WEIGHT]
  rw [hNC, hscores]
  intro x hx
  fin_cases hx <;> norm_num

/-- Claim C7 witness: the amended statement instantiated at the body
"Table of Contents" with no title, where Non-Content dominates and the
classifier indeed answers "Non-Content". -/
theorem c7_witness :
    ((1 ≤ c7wEnv.findall .nonContent1 "Table of Contents"
        ∨ (((none : Option String).getD "") ≠ ""
            ∧ 1 ≤ c7wEnv.findall .nonContent1 ((none : Option String).getD "")))
      ∧ ∀ x ∈ catScores c7wEnv "Table of Contents" ((none : Option String).getD ""),
          x.2 ≤ catScore c7wEnv "Table of Contents" ((none : Option String).getD "")
                  [(.nonContent1, 3.0)])
    ∧ detect_system_category c7wEnv "Table of Contents" none = "Non-Content" :=
  ⟨⟨Or.inl (by decide), c7wEnv_dominates⟩,
   c7_amended_thm c7wEnv "Table of Contents" none (Or.inl (by decide)) c7wEnv_dominates⟩

/-! ### Stage lemmas -/

/-- List elements paired with their loop index, starting at `k`
(the `for i, chunk in enumerate(chunks)` view of a list). -/
def withIdx {α : Type} : Nat → List α → List (Nat × α)
  | _, [] => []
  | k, a :: as => (k, a) :: withIdx (k + 1) as

theorem tryChunk_events (oracle : Nat → Nat → Option (List ℚ)) (i : Nat) :
    (tryChunkAux oracle i 0 RETRY_ATTEMPTS).2
      = if (oracle i 0).isSome then [EmbEvent.call i 0]
        else if (oracle i 1).isSome then
          [.call i 0, .sleep 5, .call i 1]
        else
          [.call i 0, .sleep 5, .call i 1, .sleep 5, .call i 2] := by
  rcases h0 : oracle i 0 <;> rcases h1 : oracle i 1 <;> rcases h2 : oracle i 2 <;>
    simp [tryChunkAux, RETRY_ATTEMPTS, h0, h1, h2]

theorem tryChunk_none_iff (oracle : Nat → Nat → Option (List ℚ)) (i : Nat) :
    (tryChunkAux oracle i 0 RETRY_ATTEMPTS).1 = none
      ↔ oracle i 0 = none ∧ oracle i 1 = none ∧ oracle i 2 = none := by
  rcases h0 : oracle i 0 <;> rcases h1 : oracle i 1 <;> rcases h2 : oracle i 2 <;>
    simp [tryChunkAux, RETRY_ATTEMPTS, h0, h1, h2]

theorem genAux_processed (oracle : Nat → Nat → Option (List ℚ)) (chunks : List Chunk) :
    ∀ k, (genAux oracle chunks k).1
      = (withIdx k chunks).map
          (fun ic => (ic.2, (tryChunkAux oracle ic.1 0 RETRY_ATTEMPTS).1)) := by
  induction chunks with
  | nil => intro k; rfl
  | cons c cs ih => intro k; simp [genAux, withIdx, ih]

theorem genAux_failed (oracle : Nat → Nat → Option (List ℚ)) (chunks : List Chunk) :
    ∀ k, (genAux oracle chunks k).2.2.1
      = ((withIdx k chunks).filter
          (fun ic => ((tryChunkAux oracle ic.1 0 RETRY_ATTEMPTS).1).isNone)).length := by
  induction chunks with
  | nil => intro k; rfl
  | cons c cs ih =>
    intro k
    cases hr : (tryChunkAux oracle k 0 RETRY_ATTEMPTS).1 <;>
      simp [genAux, withIdx, ih, List.filter, hr] <;> omega

theorem genAux_events (oracle : Nat → Nat → Option (List ℚ)) (chunks : List Chunk) :
    ∀ k, (genAux oracle chunks k).2.2.2
      = ((withIdx k chunks).map
          (fun ic => (tryChunkAux oracle ic.1 0 RETRY_ATTEMPTS).2
            ++ (if (ic.1 + 1) % 50 = 0 then [EmbEvent.sleep 5] else []))).flatten := by
  induction chunks with
  | nil => intro k; rfl
  | cons c cs ih => intro k; simp [genAux, withIdx, ih, List.append_assoc]

theorem embedAux_out (oracle : Nat → Nat → Option (List ℚ)) (chunks : List Chunk) :
    ∀ k, (embedAux oracle chunks k).1
      = (withIdx k chunks).filterMap
          (fun ic => (oracle ic.1 0).map (fun v => (ic.2, v))) := by
  induction chunks with
  | nil => intro k; rfl
  | cons c cs ih =>
    intro k
    cases h : oracle k 0 <;> simp [embedAux, withIdx, ih, h, List.filterMap_cons]

theorem embedAux_events (oracle : Nat → Nat → Option (List ℚ)) (chunks : List Chunk) :
    ∀ k, (embedAux oracle chunks k).2
      = (withIdx k chunks).map (fun ic => EmbEvent.call ic.1 0) := by
  induction chunks with
  | nil => intro k; rfl
  | cons c cs ih =>
    intro k
    cases h : oracle k 0 <;> simp [embedAux, withIdx, ih, h]

theorem tryBatch_events (ins : Nat → Nat → Option Nat) (b : Nat) :
    (tryBatchAux ins b 0 MAX_RETRIES).2
      = if (ins b 0).isSome then [UpEvent.insert b 0]
        else if (ins b 1).isSome then
          [.insert b 0, .sleep 3, .insert b 1]
        else
          [.insert b 0, .sleep 3, .insert b 1, .sleep 3, .insert b 2] := by
  rcases h0 : ins b 0 <;> rcases h1 : ins b 1 <;> rcases h2 : ins b 2 <;>
    simp [tryBatchAux, MAX_RETRIES, h0, h1, h2]

theorem tryBatch_none_iff (ins : Nat → Nat → Option Nat) (b : Nat) :
    (tryBatchAux ins b 0 MAX_RETRIES).1 = none
      ↔ ins b 0 = none ∧ ins b 1 = none ∧ ins b 2 = none := by
  rcases h0 : ins b 0 <;> rcases h1 : ins b 1 <;> rcases h2 : ins b 2 <;>
    simp [tryBatchAux, MAX_RETRIES, h0, h1, h2]

theorem upload_events_aux (ins : Nat → Nat → InsertOutcome) (chunks : List (Chunk × List ℚ)) :
    ∀ l : List Nat,
      ((l.map (fun i => uploadBatchResult ins (i / BATCH_SIZE)
          ((chunks.drop i).take BATCH_SIZE).length)).map (fun x => x.2.2)).flatten
        = l.map (fun i => UpEvent.insert (i / BATCH_SIZE) 0) := by
  intro l
  induction l with
  | nil => rfl
  | cons i is ih =>
    simp only [List.map_cons, List.flatten_cons, ih]
    cases h : ins (i / BATCH_SIZE) 0 <;> simp [uploadBatchResult, h]

theorem upload_events (ins : Nat → Nat → InsertOutcome) (chunks : List (Chunk × List ℚ)) :
    (upload_to_supabase ins chunks).2.2
      = (pyRange chunks.length BATCH_SIZE).map (fun i => UpEvent.insert (i / BATCH_SIZE) 0) :=
  upload_events_aux ins chunks (pyRange chunks.length BATCH_SIZE)

theorem upload_failed_aux (ins : Nat → Nat → InsertOutcome) (chunks : List (Chunk × List ℚ)) :
    ∀ l : List Nat,
      ((l.map (fun i => uploadBatchResult ins (i / BATCH_SIZE)
          ((chunks.drop i).take BATCH_SIZE).length)).map (fun x => x.2.1)).sum
        = (l.map (fun i =>
            match ins (i / BATCH_SIZE) 0 with
            | .ok _ => 0
            | _ => ((chunks.drop i).take BATCH_SIZE).length)).sum := by
  intro l
  induction l with
  | nil => rfl
  | cons i is ih =>
    simp only [List.map_cons, List.sum_cons, ih]
    cases h : ins (i / BATCH_SIZE) 0 <;> simp [uploadBatchResult, h]

theorem upload_failed (ins : Nat → Nat → InsertOutcome) (chunks : List (Chunk × List ℚ)) :
    (upload_to_supabase ins chunks).2.1
      = ((pyRange chunks.length BATCH_SIZE).map (fun i =>
          match ins (i / BATCH_SIZE) 0 with
          | .ok _ => 0
          | _ => ((chunks.drop i).take BATCH_SIZE).length)).sum :=
  upload_failed_aux ins chunks (pyRange chunks.length BATCH_SIZE)

theorem old_upload_failed_aux (ins : Nat → Nat → Option Nat) (chunks : List (Chunk × List ℚ)) :
    ∀ l : List Nat,
      ((l.map (fun i =>
          let r := oldBatchResult ins (i / BATCH_SIZE) ((chunks.drop i).take BATCH_SIZE).length
          (r.1, r.2.1, r.2.2
            ++ (if i + BATCH_SIZE < chunks.length then [UpEvent.sleep 2] else [])))).map
          (fun x => x.2.1)).sum
        = ((l.filter (fun i =>
              ((tryBatchAux ins (i / BATCH_SIZE) 0 MAX_RETRIES).1).isNone)).map
            (fun i => ((chunks.drop i).take BATCH_SIZE).length)).sum := by
  intro l
  induction l with
  | nil => rfl
  | cons i is ih =>
    simp only [List.map_cons, List.sum_cons, List.filter_cons, ih]
    cases h : (tryBatchAux ins (i / BATCH_SIZE) 0 MAX_RETRIES).1 <;>
      simp [oldBatchResult, h, ih]

theorem old_upload_failed (ins : Nat → Nat → Option Nat) (chunks : List (Chunk × List ℚ)) :
    (old_upload_to_supabase ins chunks).2.1
      = (((pyRange chunks.length BATCH_SIZE).filter
            (fun i => ((tryBatchAux ins (i / BATCH_SIZE) 0 MAX_RETRIES).1).isNone)).map
          (fun i => ((chunks.drop i).take BATCH_SIZE).length)).sum :=
  old_upload_failed_aux ins chunks (pyRange chunks.length BATCH_SIZE)

/-! ### Claims about the embedding stage -/

/-- Claim C3, corrected.  Only the superseded `generate_embeddings`
retries: per chunk it makes at most three provider calls with a 5-second
sleep between consecutive calls, and gives a chunk up only after all
three fail; the current `embed_with_openai` makes exactly one call per
chunk, with no sleep, and its whole event trace is one call per chunk. -/
theorem c3_amended_thm (oracle : Nat → Nat → Option (List ℚ)) (chunks : List Chunk)
    (i : Nat) :
    ((tryChunkAux oracle i 0 RETRY_ATTEMPTS).2
        = if (oracle i 0).isSome then [EmbEvent.call i 0]
          else if (oracle i 1).isSome then
            [.call i 0, .sleep 5, .call i 1]
          else
            [.call i 0, .sleep 5, .call i 1, .sleep 5, .call i 2])
    ∧ ((tryChunkAux oracle i 0 RETRY_ATTEMPTS).1 = none
        ↔ oracle i 0 = none ∧ oracle i 1 = none ∧ oracle i 2 = none)
    ∧ (generate_embeddings oracle chunks).2.2.2
        = ((withIdx 0 chunks).map
            (fun ic => (tryChunkAux oracle ic.1 0 RETRY_ATTEMPTS).2
              ++ (if (ic.1 + 1) % 50 = 0 then [EmbEvent.sleep 5] else []))).flatten
    ∧ (embed_with_openai oracle chunks).2
        = (withIdx 0 chunks).map (fun ic => EmbEvent.call ic.1 0) :=
  ⟨tryChunk_events oracle i, tryChunk_none_iff oracle i,
   genAux_events oracle chunks 0, embedAux_events oracle chunks 0⟩

/-- Claim C3, counterexample to the claim as stated: in the current
embedding stage an always-failing provider causes the single chunk to be
given up after exactly one call, with no backoff sleep — not after three
attempts with 5-second waits. -/
theorem c3_counterexample :
    (embed_with_openai (fun _ _ => none) [exChunk]).1 = []
    ∧ (embed_with_openai (fun _ _ => none) [exChunk]).2 = [EmbEvent.call 0 0] :=
  ⟨rfl, rfl⟩

/-- Claim C5, confirmed (for the legacy stage, the only one with a
failure counter).  The output of `generate_embeddings` is exactly the
chunks whose retry loop returned a vector; a chunk whose three attempts
all fail is excluded, and the `failed` counter counts each such chunk
exactly once.  The current `embed_with_openai` likewise returns only
chunks whose single call succeeded. -/
theorem c5_thm (oracle : Nat → Nat → Option (List ℚ)) (chunks : List Chunk) :
    (generate_embeddings oracle chunks).1
      = (withIdx 0 chunks).filterMap
          (fun ic => ((tryChunkAux oracle ic.1 0 RETRY_ATTEMPTS).1).map (fun v => (ic.2, v)))
    ∧ (generate_embeddings oracle chunks).2.2.1
      = ((withIdx 0 chunks).filter
          (fun ic => ((tryChunkAux oracle ic.1 0 RETRY_ATTEMPTS).1).isNone)).length
    ∧ (∀ i, (tryChunkAux oracle i 0 RETRY_ATTEMPTS).1 = none
        ↔ oracle i 0 = none ∧ oracle i 1 = none ∧ oracle i 2 = none)
    ∧ (embed_with_openai oracle chunks).1
      = (withIdx 0 chunks).filterMap
          (fun ic => (oracle ic.1 0).map (fun v => (ic.2, v))) := by
  refine ⟨?_, genAux_failed oracle chunks 0, tryChunk_none_iff oracle,
    embedAux_out oracle chunks 0⟩
  show ((genAux oracle chunks 0).1).filterMap (fun p => p.2.map (fun v => (p.1, v))) = _
  rw [genAux_processed oracle chunks 0, List.filterMap_map]
  rfl

/-! ### Claims about the upload stage -/

/-- Claim C4, corrected.  Both implementations cut the input into
consecutive batches of 50 and keep going after any batch failure, the
failure counter growing by exactly the failed batch's size; but only the
superseded `upload_to_supabase` retries (up to three attempts with a
3-second pause); the current one makes exactly one insert attempt per
batch. -/
theorem c4_amended_thm (ins : Nat → Nat → InsertOutcome) (insO : Nat → Nat → Option Nat)
    (chunks : List (Chunk × List ℚ)) (b : Nat) :
    ((pyRange chunks.length BATCH_SIZE).map
        (fun i => (chunks.drop i).take BATCH_SIZE)).flatten = chunks
    ∧ (upload_to_supabase ins chunks).2.2
        = (pyRange chunks.length BATCH_SIZE).map (fun i => UpEvent.insert (i / BATCH_SIZE) 0)
    ∧ (upload_to_supabase ins chunks).2.1
        = ((pyRange chunks.length BATCH_SIZE).map (fun i =>
            match ins (i / BATCH_SIZE) 0 with
            | .ok _ => 0
            | _ => ((chunks.drop i).take BATCH_SIZE).length)).sum
    ∧ ((tryBatchAux insO b 0 MAX_RETRIES).2
        = if (insO b 0).isSome then [UpEvent.insert b 0]
          else if (insO b 1).isSome then
            [.insert b 0, .sleep 3, .insert b 1]
          else
            [.insert b 0, .sleep 3, .insert b 1, .sleep 3, .insert b 2])
    ∧ ((tryBatchAux insO b 0 MAX_RETRIES).1 = none
        ↔ insO b 0 = none ∧ insO b 1 = none ∧ insO b 2 = none)
    ∧ (old_upload_to_supabase insO chunks).2.1
        = (((pyRange chunks.length BATCH_SIZE).filter
              (fun i => ((tryBatchAux insO (i / BATCH_SIZE) 0 MAX_RETRIES).1).isNone)).map
            (fun i => ((chunks.drop i).take BATCH_SIZE).length)).sum :=
  ⟨flatten_batches BATCH_SIZE (by decide) chunks,
   upload_events ins chunks, upload_failed ins chunks,
   tryBatch_events insO b, tryBatch_none_iff insO b,
   old_upload_failed insO chunks⟩

/-- Claim C4, counterexample to the claim as stated: in the current
upload stage, 51 chunks form two batches; an always-raising insert is
attempted exactly once per batch (one insert event each, no retries),
while the failure counter does grow by each batch's size (50 + 1) and
the second batch is still attempted. -/
theorem c4_counterexample :
    upload_to_supabase (fun _ _ => .raised) (List.replicate 51 (exChunk, ([] : List ℚ)))
      = (0, 51, [UpEvent.insert 0 0, UpEvent.insert 1 0]) :=
  rfl

end AMP
